import Mathlib

/-!
Verification of the spectral-logging example (acquire → FFT → per-bin moving
average → nonvolatile persist).  The C `float` values are embedded as exact
rationals (`ℚ`); where a claim touches a division by zero, the difference
between the rational convention (`x / 0 = 0`) and IEEE float behaviour
(infinity / NaN) is recorded in the relevant doc comment.  The averaging loop
nest, the serialization `memcpy`, the nonvolatile write call and the cycle
driver's control flow are translated directly from `main`.
-/

/-- The moving-average update from the source:
`return prev_avg + ((float)(new_val) - prev_avg) / num_samples;`.
The division is by `num_samples` itself, not `num_samples + 1`.  In `ℚ`,
division by zero yields `0` (IEEE float would yield an infinity or NaN). -/
def movingAvg (prev_avg : ℚ) (num_samples : ℤ) (new_val : ℤ) : ℚ :=
  prev_avg + ((new_val : ℚ) - prev_avg) / (num_samples : ℚ)

/-- Modelled from the spec: the update law the specification states for the Bin
Averager, `avg' = avg + (new_value − avg) / (observation_index + 1)`, where `n`
is the count of prior observations.  Kept separate from `movingAvg` (the
source's function) so the two can be compared. -/
def specUpdate (a : ℚ) (v : ℤ) (n : ℕ) : ℚ :=
  a + ((v : ℚ) - a) / ((n : ℚ) + 1)

/-- `int adc_length = 500;` -/
def adc_length : ℕ := 500

/-- `sizeof(float)` on the target: 4 bytes. -/
def sizeof_float : ℕ := 4

/-- `int flash_len = sizeof(float)*8;` -/
def flash_len : ℕ := sizeof_float * 8

/-- The window counter `k` runs over `0 .. adc_length/16 - 1` (C integer
division: 31 windows). -/
def numWindows : ℕ := adc_length / 16

/-- The analysis pass counter `j` runs over `0 .. 3`. -/
def numPasses : ℕ := 4

/-- The bin indices updated by the inner loop `for (l=3; l<8; l++)`. -/
def trackedBins : List ℕ := List.range' 3 5

/-- One execution of the inner loop `for (l=3; l<8; l++)
avg_fft_mag[l] = movingAvg(avg_fft_mag[l], k, fft_mag[l]);` on the average
array `avg`, with window counter `k` and the magnitudes `mag` returned by
`fft` for this window. -/
def updateBins (avg : ℕ → ℚ) (k : ℕ) (mag : ℕ → ℤ) : ℕ → ℚ :=
  trackedBins.foldl (fun a l => fun i => if i = l then movingAvg (a l) k (mag l) else a i) avg

/-- One analysis pass (one iteration of the `j` loop): the `k` loop over all
windows of the sampled buffer.  `mag w` is the magnitude spectrum the `fft`
call produces for window `w`; the buffer is not resampled inside the `j` loop,
so `mag` is the same for every pass. -/
def analysisPass (avg : ℕ → ℚ) (mag : ℕ → ℕ → ℤ) : ℕ → ℚ :=
  (List.range numWindows).foldl (fun a k => updateBins a k (mag k)) avg

/-- All writes to `avg_fft_mag` performed by one cycle of the driver loop:
the `j` loop runs `analysisPass` four times over the same buffer. -/
def cycleAveraging (avg : ℕ → ℚ) (mag : ℕ → ℕ → ℤ) : ℕ → ℚ :=
  (List.range numPasses).foldl (fun a _ => analysisPass a mag) avg

/-- `memcpy(writebuf, (void*)&avg_fft_mag[0], flash_len);` — the staged record
is the whole 8-element average array in index order (each entry occupying
`sizeof_float` bytes of the byte buffer). -/
def serializeRecord (avg : ℕ → ℚ) : List ℚ :=
  (List.range 8).map avg

/-- `n` successive `movingAvg` updates of one bin with the constant value `v`,
supplied observation indices `0, 1, …, n-1` (as the caller's `k` does within
one pass). -/
def runConstUpdates (a : ℚ) (v : ℤ) (n : ℕ) : ℚ :=
  (List.range n).foldl (fun acc k => movingAvg acc (k : ℤ) v) a

/-- The sequence of observation indices the driver supplies to `movingAvg` for
any fixed tracked bin during one cycle: the window counter `k = 0 .. 30` once
per analysis pass, four passes per cycle. -/
def obsIndicesOneCycle : List ℕ :=
  (List.range numPasses).flatMap (fun _ => List.range numWindows)

/-- Claim C1: the spec says the Bin Averager's update returns
`a + (v − a) / (n + 1)` for prior-observation count `n`.  The source's
`movingAvg` divides by `n` itself: at prior average `0`, observation index
`1`, new value `2` the code yields `2` while the specified formula yields `1`
(and at `n = 0` the code divides by zero). -/
theorem movingAvg_ne_specUpdate :
    movingAvg 0 1 2 = 2 ∧ specUpdate 0 2 1 = 1 ∧ movingAvg 0 1 2 ≠ specUpdate 0 2 1 := by
  refine ⟨by norm_num [movingAvg], by norm_num [specUpdate], ?_⟩
  norm_num [movingAvg, specUpdate]

/-- Claim C2: the spec's first-observation overwrite law says
`update` at observation index `0` returns the new value.  The source divides
by zero there: `movingAvg 5 0 3 = 5 + (3 − 5)/0`, which is the prior average
`5` under the rational convention (an infinity in IEEE float) — not the new
value `3` in either semantics. -/
theorem movingAvg_zero_index_keeps_prior :
    movingAvg 5 0 3 = 5 ∧ (5 : ℚ) ≠ 3 := by
  constructor
  · norm_num [movingAvg]
  · norm_num

/-- Claim C8: after one update (`n = 1`, index `0`) with constant value `3`
from initial average `5`, the source's average is `5` (the index-0 update
divides by zero; IEEE float would give an infinity that contaminates every
later update as NaN), not the constant `3` the claim requires for all
`n ≥ 1`. -/
theorem runConstUpdates_first_update_fails :
    runConstUpdates 5 3 1 = 5 ∧ (5 : ℚ) ≠ 3 := by
  constructor
  · norm_num [runConstUpdates, List.range_succ, movingAvg]
  · norm_num

set_option maxRecDepth 4000 in
/-- Claim C7: the observation index supplied to `movingAvg` is the window
counter `k`, which restarts at 0 for each of the four analysis passes of a
cycle (and for each cycle): within a single cycle the supplied sequence reads
`… , 30, 0, …` at positions 30 and 31, so it is not monotonically
non-decreasing within a cycle. -/
theorem obsIndices_not_monotone :
    obsIndicesOneCycle.length = 124 ∧
      obsIndicesOneCycle.getD 30 99 = 30 ∧ obsIndicesOneCycle.getD 31 99 = 0 ∧
      ¬ obsIndicesOneCycle.getD 30 99 ≤ obsIndicesOneCycle.getD 31 99 := by decide

/-- The externally visible operations one iteration of the driver loop
performs, in program order. -/
inductive Ev where
  | acquire | issueWrite | waitDone | pace
deriving DecidableEq

/-- One iteration of `while(true)` on the success path, in source order:
four `adc_sample_buffer_sync` calls, the analysis loops (no external
operation), `memcpy`, `wdone = false`, `nonvolatile_storage_internal_write`,
`yield_for(&wdone)`, `delay_ms(500)`. -/
def cycleTrace : List Ev :=
  [Ev.acquire, Ev.acquire, Ev.acquire, Ev.acquire, Ev.issueWrite, Ev.waitDone, Ev.pace]

/-- The operation trace of `n` back-to-back cycles of the driver loop. -/
def driverTrace (n : ℕ) : List Ev :=
  (List.replicate n cycleTrace).flatten

/-- Checks the at-most-one-outstanding-write discipline along a trace, given
whether a write is currently pending: issuing a write while one is pending is
a violation, beginning an acquisition while one is pending is a violation,
and observing the completion flag (`yield_for(&wdone)`) clears the pending
write. -/
def writeDiscipline : Bool → List Ev → Bool
  | _, [] => true
  | pending, Ev.acquire :: rest => !pending && writeDiscipline pending rest
  | pending, Ev.issueWrite :: rest => !pending && writeDiscipline true rest
  | _, Ev.waitDone :: rest => writeDiscipline false rest
  | pending, Ev.pace :: rest => writeDiscipline pending rest

theorem writeDiscipline_cycle_step (l : List Ev) :
    writeDiscipline false (cycleTrace ++ l) = writeDiscipline false l := rfl

/-- Claim C3: along the trace of any number of back-to-back cycles, no write
is issued while a previous write is still pending (the `yield_for` on the
completion flag precedes the next cycle's write) and no acquisition begins
while a write is pending. -/
theorem driverTrace_writeDiscipline (n : ℕ) :
    writeDiscipline false (driverTrace n) = true := by
  induction n with
  | zero => rfl
  | succ k ih =>
      have h : driverTrace (k + 1) = cycleTrace ++ driverTrace k := by
        simp [driverTrace, List.replicate_succ]
      rw [h, writeDiscipline_cycle_step, ih]

/-- A call to `nonvolatile_storage_internal_write(offset, length)`. -/
structure WriteCall where
  offset : ℕ
  length : ℕ
deriving DecidableEq

/-- The single nonvolatile write the loop body issues:
`nonvolatile_storage_internal_write(0, 2000)`. -/
def cycleWriteCall : WriteCall := ⟨0, 2000⟩

/-- All write calls issued during one cycle (there is exactly one). -/
def cycleWrites : List WriteCall := [cycleWriteCall]

/-- Claim C4: the cycle issues exactly one write, at offset 0, but its length
is the hard-coded `2000`, not the `flash_len = sizeof(float)*8 = 32` bytes of
the staged record (`writebuf` was registered with
`nonvolatile_storage_internal_write_buffer(writebuf, flash_len)`). -/
theorem cycleWrite_length_mismatch :
    cycleWrites = [cycleWriteCall] ∧ cycleWriteCall.offset = 0 ∧
      cycleWriteCall.length = 2000 ∧ flash_len = 32 ∧
      cycleWriteCall.length ≠ flash_len := by decide

/-- Claim C5 counterexample: the staged record serializes all 8 average
slots — `(serializeRecord avg).length = 8` values, `flash_len = 32` bytes —
not only the 5 tracked bins (which would be 5 values, 20 bytes), so the
record does not contain exactly the tracked bins' averages and its size is
not (tracked bins) × (float size). -/
theorem serializeRecord_not_tracked_only :
    (serializeRecord (fun _ => 0)).length ≠ trackedBins.length ∧
      flash_len ≠ trackedBins.length * sizeof_float := by decide

/-- Claim C5 amended: the record holds all 8 average slots in ascending bin
index, one `sizeof_float`-byte value each (32 bytes total); the tracked bins
3–7 appear in ascending order as a suffix, preceded by the untracked bins
0–2. -/
theorem serializeRecord_all_bins (avg : ℕ → ℚ) :
    (serializeRecord avg).length = 8 ∧
      (∀ i, i < 8 → (serializeRecord avg).getD i 0 = avg i) ∧
      trackedBins.map avg <:+ serializeRecord avg ∧
      (serializeRecord avg).length * sizeof_float = flash_len := by
  refine ⟨rfl, ?_, ⟨[avg 0, avg 1, avg 2], rfl⟩, rfl⟩
  intro i hi
  interval_cases i <;> rfl

/-- Whether the loop body falls through to the next iteration or executes
`return ret`. -/
inductive LoopStatus where
  | continues
  | terminates (ret : ℤ)
deriving DecidableEq

/-- The control-flow outcome of one loop body, given the four
`adc_sample_buffer_sync` return values and the return value of
`nonvolatile_storage_internal_write`: ADC errors are only printed, never
branch; a nonzero write return executes `return ret`, leaving `main`. -/
def cycleStatus (adcRets : List ℤ) (writeRet : ℤ) : LoopStatus :=
  if writeRet ≠ 0 then LoopStatus.terminates writeRet else LoopStatus.continues

/-- The log lines one loop body prints, in order: one
`"Error sampling ADC"` line per negative ADC return, then
`"ERROR calling write"` if the write call returned nonzero. -/
def cycleLog (adcRets : List ℤ) (writeRet : ℤ) : List String :=
  (adcRets.filter (fun e => e < 0)).map (fun _ => "Error sampling ADC")
    ++ (if writeRet ≠ 0 then ["ERROR calling write"] else [])

/-- Claim C6 counterexample: with a failing write call (return `-1`), the
loop body terminates the program (`return ret`) instead of continuing the
infinite loop. -/
theorem write_error_terminates :
    cycleStatus [-1, 0, 0, 0] (-1) = LoopStatus.terminates (-1) ∧
      cycleStatus [-1, 0, 0, 0] (-1) ≠ LoopStatus.continues := by decide

/-- Claim C6 amended: every ADC error is logged and never affects control
flow — the loop proceeds whenever the write-issue call succeeds; a nonzero
write-issue return is logged and terminates the program with that return
value (it does not continue the loop). -/
theorem cycle_error_policy (adcRets : List ℤ) (writeRet : ℤ) :
    (writeRet = 0 → cycleStatus adcRets writeRet = LoopStatus.continues) ∧
    (writeRet ≠ 0 → cycleStatus adcRets writeRet = LoopStatus.terminates writeRet
        ∧ "ERROR calling write" ∈ cycleLog adcRets writeRet) ∧
    (∀ e ∈ adcRets, e < 0 → "Error sampling ADC" ∈ cycleLog adcRets writeRet) := by
  refine ⟨?_, ?_, ?_⟩
  · intro h; simp [cycleStatus, h]
  · intro h
    refine ⟨by simp [cycleStatus, h], ?_⟩
    simp [cycleLog, h]
  · intro e he hneg
    apply List.mem_append_left
    exact List.mem_map_of_mem _ (List.mem_filter.mpr ⟨he, by simpa using hneg⟩)

/-- Witness for `cycle_error_policy` at a concrete cycle: first ADC call
fails with `-1`, write succeeds — the loop continues and the ADC error was
logged. -/
theorem cycle_error_policy_witness :
    cycleStatus [-1, 0, 0, 0] 0 = LoopStatus.continues ∧
      "Error sampling ADC" ∈ cycleLog [-1, 0, 0, 0] 0 :=
  ⟨(cycle_error_policy [-1, 0, 0, 0] 0).1 rfl,
   (cycle_error_policy [-1, 0, 0, 0] 0).2.2 (-1) (by decide) (by decide)⟩

/-- Witness for `serializeRecord_all_bins` at the all-zero average state. -/
theorem serializeRecord_all_bins_witness :
    (serializeRecord (fun _ => (0 : ℚ))).length = 8 :=
  (serializeRecord_all_bins (fun _ => 0)).1

theorem foldl_pointwise_frame (m : ℕ → ℤ) (k : ℕ) (i : ℕ) :
    ∀ (l : List ℕ), i ∉ l → ∀ (a : ℕ → ℚ),
      (l.foldl (fun a j => fun i2 => if i2 = j then movingAvg (a j) k (m j) else a i2) a) i
        = a i := by
  intro l
  induction l with
  | nil => intro _ a; rfl
  | cons x xs ih =>
      intro hx a
      rw [List.foldl_cons, ih (fun hmem => hx (List.mem_cons_of_mem _ hmem))]
      have hne : i ≠ x := fun he => hx (by rw [he]; exact List.mem_cons_self x xs)
      simp [hne]

theorem updateBins_low_bin (a : ℕ → ℚ) (k : ℕ) (m : ℕ → ℤ) (i : ℕ) (h : i < 3) :
    updateBins a k m i = a i := by
  have hnm : i ∉ trackedBins := by
    have ht : trackedBins = [3, 4, 5, 6, 7] := rfl
    rw [ht]
    intro hmem
    simp at hmem
    omega
  exact foldl_pointwise_frame m k i trackedBins hnm a

theorem analysisPass_low_bin (a : ℕ → ℚ) (mag : ℕ → ℕ → ℤ) (i : ℕ) (h : i < 3) :
    analysisPass a mag i = a i := by
  have hall : ∀ (ks : List ℕ) (a : ℕ → ℚ),
      (ks.foldl (fun a k => updateBins a k (mag k)) a) i = a i := by
    intro ks
    induction ks with
    | nil => intro a; rfl
    | cons k ks ih =>
        intro a
        rw [List.foldl_cons, ih, updateBins_low_bin a k (mag k) i h]
  exact hall (List.range numWindows) a

theorem cycleAveraging_low_bin (a : ℕ → ℚ) (mag : ℕ → ℕ → ℤ) (i : ℕ) (h : i < 3) :
    cycleAveraging a mag i = a i := by
  have hall : ∀ (ps : List ℕ) (a : ℕ → ℚ),
      (ps.foldl (fun a _ => analysisPass a mag) a) i = a i := by
    intro ps
    induction ps with
    | nil => intro a; rfl
    | cons p ps ih => intro a; rw [List.foldl_cons, ih, analysisPass_low_bin a mag i h]
  exact hall (List.range numPasses) a

/-- Claim C9: over one full cycle (all four analysis passes, all 31 windows),
only bins 3–7 are written; every bin with index below 3 holds exactly its
previous value afterwards, for every initial state and every magnitude
spectrum the `fft` calls may return. -/
theorem cycle_preserves_untracked_bins (avg : ℕ → ℚ) (mag : ℕ → ℕ → ℤ) (i : ℕ)
    (h : i < 3) :
    cycleAveraging avg mag i = avg i :=
  cycleAveraging_low_bin avg mag i h

/-- Witness for `cycle_preserves_untracked_bins`: bin 2 keeps its value 5
across a cycle with all-one magnitudes. -/
theorem cycle_preserves_untracked_bins_witness :
    cycleAveraging (fun _ => 5) (fun _ _ => 1) 2 = 5 :=
  cycle_preserves_untracked_bins (fun _ => 5) (fun _ _ => 1) 2 (by norm_num)

/-- Claim C10: nothing initializes `avg_fft_mag` before the averaging stage
first reads it, and the `memcpy` serializes all 8 slots, bins 0–2 included,
which no cycle ever writes: two runs with identical sample data (identical
`mag`) but initial average states differing at bin 0 stage different
records — the persisted record is not a function of the acquired samples
alone. -/
theorem record_depends_on_initial_state (a1 a2 : ℕ → ℚ) (mag : ℕ → ℕ → ℤ)
    (h : a1 0 ≠ a2 0) :
    serializeRecord (cycleAveraging a1 mag) ≠ serializeRecord (cycleAveraging a2 mag) := by
  intro he
  have h0 : ∀ b : ℕ → ℚ, (serializeRecord b).getD 0 0 = b 0 := fun b => rfl
  have h1 : cycleAveraging a1 mag 0 = cycleAveraging a2 mag 0 := by
    rw [← h0 (cycleAveraging a1 mag), ← h0 (cycleAveraging a2 mag), he]
  rw [cycleAveraging_low_bin a1 mag 0 (by norm_num),
    cycleAveraging_low_bin a2 mag 0 (by norm_num)] at h1
  exact h h1

/-- Witness for `record_depends_on_initial_state`: all-zero samples, initial
bin-0 contents 0 versus 1. -/
theorem record_depends_on_initial_state_witness :
    serializeRecord (cycleAveraging (fun _ => 0) (fun _ _ => 0)) ≠
      serializeRecord (cycleAveraging (fun _ => 1) (fun _ _ => 0)) :=
  record_depends_on_initial_state (fun _ => 0) (fun _ => 1) (fun _ _ => 0) (by norm_num)
